import Mathlib

/-!
# Verification of the deepsight batched-structure core

Shallow embedding of the batching / masking / bounding-box layer of the
`deepsight` repository, together with theorems settling the specified
properties.  Coordinates and feature values are modelled with exact rational
arithmetic; the exponential used by softmax kernels is abstracted as an
arbitrary strictly positive function, so every softmax statement holds for
the real exponential in particular.
-/

namespace Deepsight

/-! ## BatchedImages helpers (`structures/vision/_batched_images.py`)

A mask for one batch item is a list of rows of booleans (`True` = padded
pixel, `False` = valid pixel); a batch mask is a list of such matrices. -/

/-- Embeds `_compute_sizes_from_mask`: for each item the code computes
`h = m.shape[0] - m.sum(0).sum(0).item()` and
`w = m.shape[1] - m.sum(0).sum(0).item()`, i.e. it subtracts the *total*
number of `True` entries of the whole mask from both the height and the
width.  Subtraction is over `ℤ`, as Python ints can go negative. -/
def compute_sizes_from_mask (mask : List (List (List Bool))) : List (ℤ × ℤ) :=
  mask.map (fun m =>
    let s : ℤ := (m.map (fun row => ((row.filter (fun b => b)).length : ℤ))).sum
    ((m.length : ℤ) - s, (((m.getD 0 []).length : ℤ) - s)))

/-- Embeds `_compute_mask_from_sizes`: start from an all-`True`
`(len sizes) × maxH × maxW` canvas and clear the top-left `h×w` region of
each item to `False`. -/
def compute_mask_from_sizes (sizes : List (ℕ × ℕ)) (maxH maxW : ℕ) :
    List (List (List Bool)) :=
  sizes.map (fun s =>
    (List.range maxH).map (fun y =>
      (List.range maxW).map (fun x =>
        if y < s.1 ∧ x < s.2 then false else true)))

/-! ## Masked softmax (cross-attention, `_decoder.py`)

The logits fed to softmax are reals extended with `-∞`; the code only ever
produces `-∞` through `masked_fill_(mask, -inf)`, so a logit is modelled as
`Option ℚ` with `none = -∞`.  `exp` is an arbitrary function `expe`; the
extension `expO` sends `-∞` to `0`, exactly as `softmax` treats fully
masked positions. -/

/-- `exp` extended to `-∞` (`none`): `exp (-∞) = 0`. -/
def expO (expe : ℚ → ℚ) : Option ℚ → ℚ
  | none => 0
  | some x => expe x

/-- Softmax over a row of extended-real logits: each entry is its
exponential divided by the row sum of exponentials. -/
def softmaxM (expe : ℚ → ℚ) (ls : List (Option ℚ)) : List ℚ :=
  ls.map (fun l => expO expe l / (ls.map (expO expe)).sum)

/-- Embeds the post-bias logits of `CrossAttention.forward` in
`tasks/hoic/models/gahoi/_decoder.py` for one (batch, head, query) row
with `K` keys: `cpb.masked_fill_(mask, -inf)` is added to the scaled
dot-product logits by `F.scaled_dot_product_attention`, so a padded key
(`mask = True`) gets `-∞` and a valid key gets `logit + cpb`. -/
def hoicPostBiasLogits (K : ℕ) (logits cpb : ℕ → ℚ) (mask : ℕ → Bool) :
    List (Option ℚ) :=
  (List.range K).map (fun k => if mask k then none else some (logits k + cpb k))

/-- Post-softmax attention weights of the `tasks/hoic` `CrossAttention`
for one (batch, head, query) row. -/
def hoicCrossAttnWeights (expe : ℚ → ℚ) (K : ℕ) (logits cpb : ℕ → ℚ)
    (mask : ℕ → Bool) : List ℚ :=
  softmaxM expe (hoicPostBiasLogits K logits cpb mask)

/-- Embeds the post-bias logits of `CrossAttention.forward` in
`models/gahoi/_decoder.py`: `attn_logits = attn_logits + cpb` with no mask
applied anywhere, so every key keeps a finite logit. -/
def oldPostBiasLogits (K : ℕ) (logits cpb : ℕ → ℚ) : List (Option ℚ) :=
  (List.range K).map (fun k => some (logits k + cpb k))

/-- Post-softmax attention weights of the `models/gahoi` `CrossAttention`
for one (batch, head, query) row. -/
def oldCrossAttnWeights (expe : ℚ → ℚ) (K : ℕ) (logits cpb : ℕ → ℚ) :
    List ℚ :=
  softmaxM expe (oldPostBiasLogits K logits cpb)

/-! ## Scatter kernels and GraphAttention aggregation

`scatter_softmax` / `scatter_sum` are imported from `deepsight.ops.geometric`
(resp. `deepsight.utils.scatter`), which are not part of the sources. -/

/-- Modelled from the spec: `scatter_softmax` (`deepsight.ops.geometric` /
`deepsight.utils.scatter`, absent from the sources) — "softmax … applied
independently within groups of elements sharing a common index (e.g., all
edges into the same node), as opposed to a single global reduction."
Entry `k` is `exp logits[k]` divided by the sum of `exp logits[j]` over all
`j` with `idx[j] = idx[k]`. -/
def scatter_softmax (expe : ℚ → ℚ) (idx : List ℕ) (logits : List ℚ) :
    List ℚ :=
  let pairs := idx.zip logits
  pairs.map (fun p =>
    expe p.2 / ((pairs.filter (fun q => q.1 = p.1)).map (fun q => expe q.2)).sum)

/-- Componentwise sum of two feature vectors. -/
def vecAdd (v w : List ℚ) : List ℚ := List.zipWith (· + ·) v w

/-- Modelled from the spec: `scatter_sum` with "explicit output-size
control" — row `n` of the output (for `n < out_size`) is the sum of the
value rows whose index is `n`, and an explicit zero vector of the given
width when no row has index `n`. -/
def scatter_sum (idx : List ℕ) (vals : List (List ℚ)) (width out_size : ℕ) :
    List (List ℚ) :=
  (List.range out_size).map (fun n =>
    ((idx.zip vals).filter (fun p => p.1 = n)).foldl
      (fun acc p => vecAdd acc p.2) (List.replicate width 0))

/-- Modelled from the spec: the default output sizing of `scatter_sum` when
no explicit output size is passed — the output covers "just the indices
that appear in the edge list", i.e. rows `0 … max idx`. -/
def defaultOutSize (idx : List ℕ) : ℕ :=
  idx.foldl (fun a n => Nat.max a (n + 1)) 0

/-- Embeds the attention aggregation of `GraphAttention.forward` in
`tasks/hoic/models/gahoi/_decoder.py` for one head: per-edge segment
softmax weights grouped by `adjacency_matrix().indices()[0]`, messages
scaled by their weight, then `scatter_sum` with
`dim_output_size = graphs.num_nodes()`. -/
def gahoiAggregate (expe : ℚ → ℚ) (idx : List ℕ) (logits : List ℚ)
    (messages : List (List ℚ)) (width numNodes : ℕ) : List (List ℚ) :=
  let w := scatter_softmax expe idx logits
  scatter_sum idx (List.zipWith (fun a m => m.map (fun x => a * x)) w messages)
    width numNodes

/-- Embeds the attention aggregation of `GraphAttention.forward` in
`models/gahoi/_decoder.py` for one head: identical to the `tasks/hoic`
version except that `scatter_sum` is called without `dim_output_size`, so
the output is sized from the indices present. -/
def oldGahoiAggregate (expe : ℚ → ℚ) (idx : List ℕ) (logits : List ℚ)
    (messages : List (List ℚ)) (width : ℕ) : List (List ℚ) :=
  let w := scatter_softmax expe idx logits
  scatter_sum idx (List.zipWith (fun a m => m.map (fun x => a * x)) w messages)
    width (defaultOutSize idx)

/-! ## `BatchedImages.batch` (`structures/vision/_batched_images.py`)

A raw tensor is modelled by its shape together with dtype / device tags and
an access function for the three-dimensional case (channel, row, column).
Only the shape and the tags matter for the validity checks. -/

/-- A raw per-item tensor: shape, dtype tag, device tag, and element access
for the three-dimensional `(C, H, W)` case. -/
structure RawTensor where
  shape : List ℕ
  dtype : ℕ
  device : ℕ
  at3 : ℕ → ℕ → ℕ → ℚ

instance : Inhabited RawTensor := ⟨⟨[], 0, 0, fun _ _ _ => 0⟩⟩

/-- The validity condition checked by `_check_images`: the list is nonempty,
every image is three-dimensional, and all images agree with the first in
channel count (`shape[0]`), dtype, and device. -/
def validImages (images : List RawTensor) : Prop :=
  0 < images.length ∧
    ∀ img ∈ images, img.shape.length = 3 ∧
      img.shape.getD 0 0 = (images.getD 0 default).shape.getD 0 0 ∧
      img.dtype = (images.getD 0 default).dtype ∧
      img.device = (images.getD 0 default).device

instance (images : List RawTensor) : Decidable (validImages images) := by
  unfold validImages
  exact inferInstance

/-- Embeds `_check_images`: the five `ValueError` checks, in source order. -/
def check_images (images : List RawTensor) : Except String Unit :=
  if images.length = 0 then
    .error "At least one image must be provided."
  else if images.any (fun img => img.shape.length ≠ 3) then
    .error "All images must have 3 dimensions."
  else if images.any
      (fun img => img.shape.getD 0 0 ≠ (images.getD 0 default).shape.getD 0 0) then
    .error "All images must have the same number of channels."
  else if images.any (fun img => img.dtype ≠ (images.getD 0 default).dtype) then
    .error "All images must have the same dtype."
  else if images.any (fun img => img.device ≠ (images.getD 0 default).device) then
    .error "All images must be on the same device."
  else
    .ok ()

/-- The result of `BatchedImages.batch`: the canvas shape, the canvas
access function, the per-item sizes, and the mask access function. -/
structure Batched where
  B : ℕ
  C : ℕ
  maxH : ℕ
  maxW : ℕ
  data : ℕ → ℕ → ℕ → ℕ → ℚ
  image_sizes : List (ℕ × ℕ)
  mask : ℕ → ℕ → ℕ → Bool

/-- Embeds `BatchedImages.batch`: after `_check_images` passes, allocate a
`padding_value`-filled canvas of shape `(B, C, maxH, maxW)`, copy each image
into its top-left region, and (through the constructor's
`_compute_mask_from_sizes` path) mark exactly the complement of each item's
copied region as padded. -/
def BatchedImages.batch (images : List RawTensor) (padding_value : ℚ) :
    Except String Batched :=
  match check_images images with
  | .error e => .error e
  | .ok _ =>
  let image_sizes := images.map (fun img => (img.shape.getD 1 0, img.shape.getD 2 0))
  let maxH := (image_sizes.map Prod.fst).foldl Nat.max 0
  let maxW := (image_sizes.map Prod.snd).foldl Nat.max 0
  .ok
    { B := images.length
      C := (images.getD 0 default).shape.getD 0 0
      maxH := maxH
      maxW := maxW
      data := fun i c y x =>
        let img := images.getD i default
        if y < img.shape.getD 1 0 ∧ x < img.shape.getD 2 0 then img.at3 c y x
        else padding_value
      image_sizes := image_sizes
      mask := fun i y x =>
        let s := image_sizes.getD i (0, 0)
        if y < s.1 ∧ x < s.2 then false else true }

instance : Inhabited Batched :=
  ⟨⟨0, 0, 0, 0, fun _ _ _ _ => 0, [], fun _ _ _ => true⟩⟩

/-- The two images of the spec's example: `img_a (3×4×5)` and
`img_b (3×6×3)`, with all pixels zero. -/
def sampleImages : List RawTensor :=
  [⟨[3, 4, 5], 0, 0, fun _ _ _ => 0⟩, ⟨[3, 6, 3], 0, 0, fun _ _ _ => 0⟩]

/-- The batch built from the sample images. -/
def sampleBatched : Batched :=
  (BatchedImages.batch sampleImages 0).toOption.getD default

/-! ## `BoundingBoxes` (`structures/_bboxes.py`)

Coordinates are exact rationals; one row of the `(N, 4)` coordinate tensor
is a `Box`.  The meaning of the four fields depends on the stored format. -/

/-- The format of the bounding box coordinates. -/
inductive BoundingBoxFormat where
  | XYXY
  | XYWH
  | CXCYWH
deriving DecidableEq, Repr

/-- One row of the `(N, 4)` coordinate tensor. -/
structure Box where
  c0 : ℚ
  c1 : ℚ
  c2 : ℚ
  c3 : ℚ
deriving DecidableEq, Repr

/-- The `BoundingBoxes` structure: coordinates, format, normalization flag
and reference image size `(H, W)`. -/
structure BoundingBoxes where
  coordinates : List Box
  format : BoundingBoxFormat
  normalized : Bool
  image_size : ℕ × ℕ
deriving DecidableEq, Repr

namespace BoundingBoxes

/-- One row of `to_xyxy`'s coordinate computation. -/
def rowToXYXY : BoundingBoxFormat → Box → Box
  | .XYXY, b => b
  | .XYWH, b => ⟨b.c0, b.c1, b.c0 + b.c2, b.c1 + b.c3⟩
  | .CXCYWH, b =>
      ⟨b.c0 - b.c2 / 2, b.c1 - b.c3 / 2,
        b.c0 - b.c2 / 2 + b.c2, b.c1 - b.c3 / 2 + b.c3⟩

/-- Embeds `to_xyxy`: in the `XYXY` branch the source returns `self`. -/
def to_xyxy (b : BoundingBoxes) : BoundingBoxes :=
  match b.format with
  | .XYXY => b
  | f => ⟨b.coordinates.map (rowToXYXY f), .XYXY, b.normalized, b.image_size⟩

/-- One row of `to_xywh`'s coordinate computation. -/
def rowToXYWH : BoundingBoxFormat → Box → Box
  | .XYXY, b => ⟨b.c0, b.c1, b.c2 - b.c0, b.c3 - b.c1⟩
  | .XYWH, b => b
  | .CXCYWH, b => ⟨b.c0 - b.c2 / 2, b.c1 - b.c3 / 2, b.c2, b.c3⟩

/-- Embeds `to_xywh`: in the `XYWH` branch the source returns `self`. -/
def to_xywh (b : BoundingBoxes) : BoundingBoxes :=
  match b.format with
  | .XYWH => b
  | f => ⟨b.coordinates.map (rowToXYWH f), .XYWH, b.normalized, b.image_size⟩

/-- One row of `to_cxcywh`'s coordinate computation. -/
def rowToCXCYWH : BoundingBoxFormat → Box → Box
  | .XYXY, b =>
      ⟨b.c0 + (b.c2 - b.c0) / 2, b.c1 + (b.c3 - b.c1) / 2,
        b.c2 - b.c0, b.c3 - b.c1⟩
  | .XYWH, b => ⟨b.c0 + b.c2 / 2, b.c1 + b.c3 / 2, b.c2, b.c3⟩
  | .CXCYWH, b => b

/-- Embeds `to_cxcywh`: in the `CXCYWH` branch the source returns `self`. -/
def to_cxcywh (b : BoundingBoxes) : BoundingBoxes :=
  match b.format with
  | .CXCYWH => b
  | f => ⟨b.coordinates.map (rowToCXCYWH f), .CXCYWH, b.normalized, b.image_size⟩

/-- The row conversion taking format `src` to format `tgt`, as the source
computes it per target method. -/
def fmtRow (src tgt : BoundingBoxFormat) : Box → Box :=
  match tgt with
  | .XYXY => rowToXYXY src
  | .XYWH => rowToXYWH src
  | .CXCYWH => rowToCXCYWH src

/-- The conversion method dispatched on the target format, as `convert`
does. -/
def fmtTo (tgt : BoundingBoxFormat) (b : BoundingBoxes) : BoundingBoxes :=
  match tgt with
  | .XYXY => b.to_xyxy
  | .XYWH => b.to_xywh
  | .CXCYWH => b.to_cxcywh

/-- One row divided componentwise by the `[W, H, W, H]` factor. -/
def divRow (W H : ℚ) (r : Box) : Box :=
  ⟨r.c0 / W, r.c1 / H, r.c2 / W, r.c3 / H⟩

/-- One row multiplied componentwise by the `[W, H, W, H]` factor. -/
def mulRow (W H : ℚ) (r : Box) : Box :=
  ⟨r.c0 * W, r.c1 * H, r.c2 * W, r.c3 * H⟩

/-- Embeds `normalize`: divide by `[W, H, W, H]` unless already
normalized, in which case the source returns `self`. -/
def normalize (b : BoundingBoxes) : BoundingBoxes :=
  if b.normalized then b
  else
    ⟨b.coordinates.map (divRow (b.image_size.2 : ℚ) (b.image_size.1 : ℚ)),
      b.format, true, b.image_size⟩

/-- Embeds `denormalize`: multiply by `[W, H, W, H]` unless already
denormalized, in which case the source returns `self`. -/
def denormalize (b : BoundingBoxes) : BoundingBoxes :=
  if b.normalized then
    ⟨b.coordinates.map (mulRow (b.image_size.2 : ℚ) (b.image_size.1 : ℚ)),
      b.format, false, b.image_size⟩
  else b

/-- Embeds `convert`: format conversion first, then normalization change;
`none` leaves the corresponding state untouched. -/
def convert (b : BoundingBoxes) (format : Option BoundingBoxFormat)
    (normalized : Option Bool) : BoundingBoxes :=
  let boxes :=
    match format with
    | some .XYXY => b.to_xyxy
    | some .XYWH => b.to_xywh
    | some .CXCYWH => b.to_cxcywh
    | none => b
  match normalized with
  | some true => boxes.normalize
  | some false => boxes.denormalize
  | none => boxes

/-- Embeds `convert_like`. -/
def convert_like (b other : BoundingBoxes) : BoundingBoxes :=
  b.convert (some other.format) (some other.normalized)

/-- Embeds `horizontal_flip`: the source clones the coordinate buffer and
mirrors the x components at `W` (or `1` when normalized). -/
def horizontal_flip (b : BoundingBoxes) : BoundingBoxes :=
  let W : ℚ := if b.normalized then 1 else (b.image_size.2 : ℚ)
  let coords :=
    match b.format with
    | .XYXY => b.coordinates.map (fun r => ⟨W - r.c2, r.c1, W - r.c0, r.c3⟩)
    | .XYWH => b.coordinates.map (fun r => ⟨W - r.c0 - r.c2, r.c1, r.c2, r.c3⟩)
    | .CXCYWH => b.coordinates.map (fun r => ⟨W - r.c0, r.c1, r.c2, r.c3⟩)
  ⟨coords, b.format, b.normalized, b.image_size⟩

/-- Embeds `area`: `(x2-x1)*(y2-y1)` in `XYXY`, `w*h` otherwise. -/
def area (b : BoundingBoxes) : List ℚ :=
  match b.format with
  | .XYXY => b.coordinates.map (fun r => (r.c2 - r.c0) * (r.c3 - r.c1))
  | .XYWH => b.coordinates.map (fun r => r.c2 * r.c3)
  | .CXCYWH => b.coordinates.map (fun r => r.c2 * r.c3)

/-- The errors raised by the box set operations, in place of the source's
`ValueError` messages. -/
inductive BoxError where
  | countMismatch
  | sizeMismatch
  | normMismatch
deriving DecidableEq, Repr

/-- Embeds `_check_compatibility`: equal box count, then equal image size. -/
def check_compatibility (b other : BoundingBoxes) : Except BoxError Unit :=
  if b.coordinates.length ≠ other.coordinates.length then
    .error .countMismatch
  else if b.image_size ≠ other.image_size then
    .error .sizeMismatch
  else
    .ok ()

/-- Embeds `union`: both operands brought to `XYXY` (the other operand is
`convert_like`-ed, so its format and normalization are auto-converted),
compatibility checked, then componentwise min of the top-left corners and
max of the bottom-right corners, returned in `XYXY` format. -/
def union (b other : BoundingBoxes) : Except BoxError BoundingBoxes :=
  match check_compatibility b.to_xyxy (other.convert_like b.to_xyxy) with
  | .error e => .error e
  | .ok _ =>
  .ok ⟨List.zipWith
        (fun r s => ⟨min r.c0 s.c0, min r.c1 s.c1, max r.c2 s.c2, max r.c3 s.c3⟩)
        b.to_xyxy.coordinates (other.convert_like b.to_xyxy).coordinates,
      .XYXY, b.to_xyxy.normalized, b.to_xyxy.image_size⟩

/-- Embeds `intersection`: both operands brought to `XYXY`, compatibility
checked, then the overlap rectangle with width and height clamped at `0`,
returned in `XYWH` format. -/
def intersection (b other : BoundingBoxes) : Except BoxError BoundingBoxes :=
  match check_compatibility b.to_xyxy (other.convert_like b.to_xyxy) with
  | .error e => .error e
  | .ok _ =>
  .ok ⟨List.zipWith
        (fun r s =>
          ⟨max r.c0 s.c0, max r.c1 s.c1,
            max (min r.c2 s.c2 - max r.c0 s.c0) 0,
            max (min r.c3 s.c3 - max r.c1 s.c1) 0⟩)
        b.to_xyxy.coordinates (other.convert_like b.to_xyxy).coordinates,
      .XYWH, b.to_xyxy.normalized, b.to_xyxy.image_size⟩

/-- Embeds `intersection_area`: an explicit normalization-state check, then
`self.intersection(other).area()`. -/
def intersection_area (b other : BoundingBoxes) : Except BoxError (List ℚ) :=
  if b.normalized ≠ other.normalized then
    .error .normMismatch
  else
    match b.intersection other with
    | .error e => .error e
    | .ok i => .ok i.area

/-- Embeds `union_area`: an explicit normalization-state check, then
`area1 + area2 - intersection_area`. -/
def union_area (b other : BoundingBoxes) : Except BoxError (List ℚ) :=
  if b.normalized ≠ other.normalized then
    .error .normMismatch
  else
    match b.intersection_area other with
    | .error e => .error e
    | .ok ia =>
      .ok (List.zipWith (fun a i => a - i)
        (List.zipWith (fun a1 a2 => a1 + a2) b.area other.area) ia)

/-- The `float32` machine epsilon used by `torch.finfo(dtype).eps` for the
(always `float()`-converted) coordinate tensors. -/
def machineEps : ℚ := 1 / 2 ^ 23

/-- Embeds `iou`: normalize both operands, then
`intersection_area / (union_area + eps)`. -/
def iou (b other : BoundingBoxes) : Except BoxError (List ℚ) :=
  match b.normalize.intersection_area other.normalize with
  | .error e => .error e
  | .ok ia =>
    match b.normalize.union_area other.normalize with
    | .error e => .error e
    | .ok ua => .ok (List.zipWith (fun i u => i / (u + machineEps)) ia ua)

end BoundingBoxes

/-! ### Allocation-aware conversion wrappers

Python's identity short-circuit (`return self`) is observable through
object identity.  An `AllocBoxes` pairs the value with an object id; every
`self.__class__(...)` call allocates a fresh id from a counter, while the
short-circuit branches return the argument itself, id included. -/

/-- A `BoundingBoxes` object together with its Python object id. -/
structure AllocBoxes where
  val : BoundingBoxes
  id : ℕ
deriving DecidableEq, Repr

namespace AllocBoxes

/-- `to_xyxy` with allocation tracking: the `XYXY` branch returns `self`
(same object, same id, no allocation); otherwise a new object is built. -/
def to_xyxyA (b : AllocBoxes) (fresh : ℕ) : AllocBoxes × ℕ :=
  match b.val.format with
  | .XYXY => (b, fresh)
  | _ => (⟨b.val.to_xyxy, fresh⟩, fresh + 1)

/-- `to_xywh` with allocation tracking. -/
def to_xywhA (b : AllocBoxes) (fresh : ℕ) : AllocBoxes × ℕ :=
  match b.val.format with
  | .XYWH => (b, fresh)
  | _ => (⟨b.val.to_xywh, fresh⟩, fresh + 1)

/-- `to_cxcywh` with allocation tracking. -/
def to_cxcywhA (b : AllocBoxes) (fresh : ℕ) : AllocBoxes × ℕ :=
  match b.val.format with
  | .CXCYWH => (b, fresh)
  | _ => (⟨b.val.to_cxcywh, fresh⟩, fresh + 1)

/-- `normalize` with allocation tracking: returns `self` when already
normalized. -/
def normalizeA (b : AllocBoxes) (fresh : ℕ) : AllocBoxes × ℕ :=
  if b.val.normalized then (b, fresh)
  else (⟨b.val.normalize, fresh⟩, fresh + 1)

/-- `denormalize` with allocation tracking: returns `self` when already
denormalized. -/
def denormalizeA (b : AllocBoxes) (fresh : ℕ) : AllocBoxes × ℕ :=
  if b.val.normalized then (⟨b.val.denormalize, fresh⟩, fresh + 1)
  else (b, fresh)

end AllocBoxes

/-! ## Helper lemmas -/

/-- A map whose function fixes every element of the list is the identity. -/
theorem map_eq_self {α : Type} (f : α → α) (l : List α) (h : ∀ x, f x = x) :
    l.map f = l := by
  induction l with
  | nil => rfl
  | cons a t ih => simp [h, ih]

/-- Every element of a `zipWith` satisfies any property closed under the
combining function. -/
theorem zipWith_forall_mem {α β γ : Type} {f : α → β → γ} {P : γ → Prop}
    (h : ∀ x y, P (f x y)) :
    ∀ (l₁ : List α) (l₂ : List β), ∀ a ∈ List.zipWith f l₁ l₂, P a := by
  intro l₁
  induction l₁ with
  | nil => intro l₂ a ha; simp at ha
  | cons x t ih =>
    intro l₂ a ha
    cases l₂ with
    | nil => simp at ha
    | cons y s =>
      rcases List.mem_cons.mp ha with ha | ha
      · exact ha ▸ h x y
      · exact ih s a ha

/-- Filtering a zipped list for an index that does not occur gives `[]`. -/
theorem filter_zip_eq_nil {α : Type} (idx : List ℕ) (vals : List α) (n : ℕ)
    (h : n ∉ idx) :
    (idx.zip vals).filter (fun p => p.1 = n) = [] := by
  rw [List.filter_eq_nil_iff]
  intro p hp
  have h1 : p.1 ∈ idx := (List.of_mem_zip hp).1
  simp only [decide_eq_true_eq]
  intro he
  exact h (he ▸ h1)

/-- `getD` through a `map`, inside the list's length. -/
theorem getD_map_lt {α β : Type} [Inhabited α] (l : List α) (f : α → β)
    (d : β) (i : ℕ) (h : i < l.length) :
    (l.map f).getD i d = f (l.getD i default) := by
  rw [List.getD_eq_getElem?_getD, List.getD_eq_getElem?_getD,
    List.getElem?_map, List.getElem?_eq_getElem h]
  rfl

/-- `_check_images` succeeds exactly on valid image lists. -/
theorem check_images_ok_iff (images : List RawTensor) :
    check_images images = .ok () ↔ validImages images := by
  unfold check_images validImages
  split_ifs with h1 h2 h3 h4 h5
  · simp [h1]
  · simp only [List.any_eq_true] at h2
    obtain ⟨img, hmem, hne⟩ := h2
    simp only [decide_eq_true_eq] at hne
    constructor
    · intro h; cases h
    · rintro ⟨-, hall⟩; exact absurd ((hall img hmem).1) hne
  · simp only [List.any_eq_true] at h3
    obtain ⟨img, hmem, hne⟩ := h3
    simp only [decide_eq_true_eq] at hne
    constructor
    · intro h; cases h
    · rintro ⟨-, hall⟩; exact absurd ((hall img hmem).2.1) hne
  · simp only [List.any_eq_true] at h4
    obtain ⟨img, hmem, hne⟩ := h4
    simp only [decide_eq_true_eq] at hne
    constructor
    · intro h; cases h
    · rintro ⟨-, hall⟩; exact absurd ((hall img hmem).2.2.1) hne
  · simp only [List.any_eq_true] at h5
    obtain ⟨img, hmem, hne⟩ := h5
    simp only [decide_eq_true_eq] at hne
    constructor
    · intro h; cases h
    · rintro ⟨-, hall⟩; exact absurd ((hall img hmem).2.2.2) hne
  · simp only [List.any_eq_true, not_exists, not_and] at h2 h3 h4 h5
    constructor
    · intro _
      refine ⟨Nat.pos_of_ne_zero h1, fun img hmem => ⟨?_, ?_, ?_, ?_⟩⟩
      · have := h2 img hmem; simpa using this
      · have := h3 img hmem; simpa using this
      · have := h4 img hmem; simpa using this
      · have := h5 img hmem; simpa using this
    · intro _; rfl


namespace BoundingBoxes

/-- Converting one row to format `g` and back to format `f` is the
identity. -/
theorem rowRoundNN (f g : BoundingBoxFormat) (r : Box) :
    fmtRow g f (fmtRow f g r) = r := by
  cases f <;> cases g <;> cases r <;>
    simp only [fmtRow, rowToXYXY, rowToXYWH, rowToCXCYWH, Box.mk.injEq] <;>
    refine ⟨by ring, by ring, by ring, by ring⟩

/-- Convert, divide by the image size, convert back, multiply back: the
identity for nonzero image dimensions. -/
theorem rowRoundDN (f g : BoundingBoxFormat) (W H : ℚ) (hW : W ≠ 0)
    (hH : H ≠ 0) (r : Box) :
    mulRow W H (fmtRow g f (divRow W H (fmtRow f g r))) = r := by
  cases f <;> cases g <;> cases r <;>
    simp only [fmtRow, rowToXYXY, rowToXYWH, rowToCXCYWH, divRow, mulRow,
      Box.mk.injEq] <;>
    refine ⟨?_, ?_, ?_, ?_⟩ <;> (field_simp; try ring)

/-- Convert, multiply by the image size, convert back, divide back: the
identity for nonzero image dimensions. -/
theorem rowRoundND (f g : BoundingBoxFormat) (W H : ℚ) (hW : W ≠ 0)
    (hH : H ≠ 0) (r : Box) :
    divRow W H (fmtRow g f (mulRow W H (fmtRow f g r))) = r := by
  cases f <;> cases g <;> cases r <;>
    simp only [fmtRow, rowToXYXY, rowToXYWH, rowToCXCYWH, divRow, mulRow,
      Box.mk.injEq] <;>
    refine ⟨?_, ?_, ?_, ?_⟩ <;> (field_simp; try ring)

/-- Every format conversion method maps `fmtRow` over the rows, keeping
the other fields. -/
theorem fmtTo_eq (tgt : BoundingBoxFormat) (b : BoundingBoxes) :
    fmtTo tgt b =
      ⟨b.coordinates.map (fmtRow b.format tgt), tgt, b.normalized,
        b.image_size⟩ := by
  obtain ⟨coords, f, n, sz⟩ := b
  cases tgt <;> cases f <;>
    simp only [fmtTo, to_xyxy, to_xywh, to_cxcywh, fmtRow] <;>
    first
      | rfl
      | (congr 1; exact (map_eq_self _ coords (fun r => rfl)).symm)

/-- `convert` with both targets given is the format conversion followed by
the normalization change. -/
theorem convert_some (b : BoundingBoxes) (f : BoundingBoxFormat) (n : Bool) :
    b.convert (some f) (some n) =
      (if n then (fmtTo f b).normalize else (fmtTo f b).denormalize) := by
  cases f <;> cases n <;> rfl

end BoundingBoxes


namespace BoundingBoxes

/-- `convert` with both targets given preserves the row count and the
image size, and sets the normalization flag to the target. -/
theorem convert_meta (b : BoundingBoxes) (f : BoundingBoxFormat) (n : Bool) :
    (b.convert (some f) (some n)).coordinates.length =
        b.coordinates.length ∧
      (b.convert (some f) (some n)).normalized = n ∧
      (b.convert (some f) (some n)).image_size = b.image_size := by
  rcases b with ⟨coords, f1, nb, sz⟩
  rw [convert_some]
  cases n <;> cases nb <;>
    simp [fmtTo_eq, normalize, denormalize]

/-- `to_xyxy` preserves the row count, normalization flag and image size. -/
theorem to_xyxy_meta (b : BoundingBoxes) :
    b.to_xyxy.coordinates.length = b.coordinates.length ∧
      b.to_xyxy.normalized = b.normalized ∧
      b.to_xyxy.image_size = b.image_size := by
  have h : b.to_xyxy = fmtTo .XYXY b := rfl
  rw [h, fmtTo_eq]
  simp

/-- `_check_compatibility` succeeds exactly on equal row counts and equal
image sizes. -/
theorem check_compatibility_ok_iff (x y : BoundingBoxes) :
    check_compatibility x y = .ok () ↔
      (x.coordinates.length = y.coordinates.length ∧
        x.image_size = y.image_size) := by
  unfold check_compatibility
  split_ifs with h1 h2 <;> simp_all

/-- `union` succeeds exactly on equal row counts and equal image sizes,
for any formats and normalization states. -/
theorem union_isOk_iff (b1 b2 : BoundingBoxes) :
    (b1.union b2).isOk ↔
      (b1.coordinates.length = b2.coordinates.length ∧
        b1.image_size = b2.image_size) := by
  have hm := convert_meta b2 b1.to_xyxy.format b1.to_xyxy.normalized
  have h1 := to_xyxy_meta b1
  have hcomp : check_compatibility b1.to_xyxy (b2.convert_like b1.to_xyxy)
      = .ok () ↔
      (b1.coordinates.length = b2.coordinates.length ∧
        b1.image_size = b2.image_size) := by
    rw [check_compatibility_ok_iff]
    unfold convert_like
    rw [h1.1, hm.1, hm.2.2, h1.2.2]
  unfold union
  cases hc : check_compatibility b1.to_xyxy (b2.convert_like b1.to_xyxy) with
  | error e =>
    simp only [Except.isOk, Except.toBool]
    constructor
    · intro h; cases h
    · intro hcond
      have := hcomp.mpr hcond
      rw [hc] at this
      cases this
  | ok u =>
    cases u
    simp only [Except.isOk, Except.toBool]
    constructor
    · intro _; exact hcomp.mp hc
    · intro _; trivial

/-- `intersection` succeeds exactly on equal row counts and equal image
sizes, for any formats and normalization states. -/
theorem intersection_isOk_iff (b1 b2 : BoundingBoxes) :
    (b1.intersection b2).isOk ↔
      (b1.coordinates.length = b2.coordinates.length ∧
        b1.image_size = b2.image_size) := by
  have hm := convert_meta b2 b1.to_xyxy.format b1.to_xyxy.normalized
  have h1 := to_xyxy_meta b1
  have hcomp : check_compatibility b1.to_xyxy (b2.convert_like b1.to_xyxy)
      = .ok () ↔
      (b1.coordinates.length = b2.coordinates.length ∧
        b1.image_size = b2.image_size) := by
    rw [check_compatibility_ok_iff]
    unfold convert_like
    rw [h1.1, hm.1, hm.2.2, h1.2.2]
  unfold intersection
  cases hc : check_compatibility b1.to_xyxy (b2.convert_like b1.to_xyxy) with
  | error e =>
    simp only [Except.isOk, Except.toBool]
    constructor
    · intro h; cases h
    · intro hcond
      have := hcomp.mpr hcond
      rw [hc] at this
      cases this
  | ok u =>
    cases u
    simp only [Except.isOk, Except.toBool]
    constructor
    · intro _; exact hcomp.mp hc
    · intro _; trivial

/-- `intersection_area` succeeds exactly on equal normalization, equal row
counts and equal image sizes. -/
theorem intersection_area_isOk_iff (b1 b2 : BoundingBoxes) :
    (b1.intersection_area b2).isOk ↔
      (b1.normalized = b2.normalized ∧
        b1.coordinates.length = b2.coordinates.length ∧
        b1.image_size = b2.image_size) := by
  unfold intersection_area
  split_ifs with hn
  · simp only [Except.isOk, Except.toBool]
    constructor
    · intro h; cases h
    · rintro ⟨he, -⟩; exact absurd he hn
  · cases hi : b1.intersection b2 with
    | error e =>
      simp only [Except.isOk, Except.toBool]
      constructor
      · intro h; cases h
      · rintro ⟨-, hrest⟩
        have := (intersection_isOk_iff b1 b2).mpr hrest
        rw [hi] at this
        simp [Except.isOk, Except.toBool] at this
    | ok i =>
      simp only [Except.isOk, Except.toBool]
      constructor
      · intro _
        refine ⟨not_ne_iff.mp hn, (intersection_isOk_iff b1 b2).mp ?_⟩
        rw [hi]
        rfl
      · intro _; trivial

/-- `union_area` succeeds exactly on equal normalization, equal row counts
and equal image sizes. -/
theorem union_area_isOk_iff (b1 b2 : BoundingBoxes) :
    (b1.union_area b2).isOk ↔
      (b1.normalized = b2.normalized ∧
        b1.coordinates.length = b2.coordinates.length ∧
        b1.image_size = b2.image_size) := by
  unfold union_area
  split_ifs with hn
  · simp only [Except.isOk, Except.toBool]
    constructor
    · intro h; cases h
    · rintro ⟨he, -⟩; exact absurd he hn
  · cases hi : b1.intersection_area b2 with
    | error e =>
      simp only [Except.isOk, Except.toBool]
      constructor
      · intro h; cases h
      · intro hcond
        have := (intersection_area_isOk_iff b1 b2).mpr hcond
        rw [hi] at this
        simp [Except.isOk, Except.toBool] at this
    | ok ia =>
      simp only [Except.isOk, Except.toBool]
      constructor
      · intro _
        exact (intersection_area_isOk_iff b1 b2).mp (by rw [hi]; rfl)
      · intro _; trivial

/-- Under a normalization mismatch the area operations raise the explicit
normalization error. -/
theorem area_ops_norm_mismatch (b1 b2 : BoundingBoxes)
    (hn : b1.normalized ≠ b2.normalized) :
    b1.union_area b2 = .error .normMismatch ∧
      b1.intersection_area b2 = .error .normMismatch := by
  constructor
  · unfold union_area
    rw [if_pos hn]
  · unfold intersection_area
    rw [if_pos hn]

/-- On success `intersection` returns `XYWH` rows with clamped
non-negative width and height. -/
theorem intersection_ok_spec (b1 b2 r : BoundingBoxes)
    (h : b1.intersection b2 = .ok r) :
    r.format = .XYWH ∧ ∀ bx ∈ r.coordinates, 0 ≤ bx.c2 ∧ 0 ≤ bx.c3 := by
  unfold intersection at h
  cases hc : check_compatibility b1.to_xyxy (b2.convert_like b1.to_xyxy) with
  | error e =>
    rw [hc] at h
    simp at h
  | ok u =>
    cases u
    rw [hc] at h
    simp only [Except.ok.injEq] at h
    subst h
    refine ⟨rfl, ?_⟩
    exact zipWith_forall_mem
      (fun x y => ⟨le_max_right _ _, le_max_right _ _⟩) _ _

/-- On success `union` returns its result in `XYXY` format. -/
theorem union_ok_spec (b1 b2 u : BoundingBoxes)
    (h : b1.union b2 = .ok u) : u.format = .XYXY := by
  unfold union at h
  cases hc : check_compatibility b1.to_xyxy (b2.convert_like b1.to_xyxy) with
  | error e =>
    rw [hc] at h
    simp at h
  | ok u2 =>
    cases u2
    rw [hc] at h
    simp only [Except.ok.injEq] at h
    subst h
    rfl

/-- An `XYWH` set with non-negative widths and heights has non-negative
areas. -/
theorem area_nonneg_of_clamped (r : BoundingBoxes) (hf : r.format = .XYWH)
    (hcs : ∀ bx ∈ r.coordinates, 0 ≤ bx.c2 ∧ 0 ≤ bx.c3) :
    ∀ a ∈ r.area, 0 ≤ a := by
  rcases r with ⟨coords, f, n, sz⟩
  simp only at hf
  subst hf
  intro a ha
  rw [show area ⟨coords, .XYWH, n, sz⟩ =
      coords.map (fun r => r.c2 * r.c3) from rfl] at ha
  obtain ⟨bx, hbx, rfl⟩ := List.mem_map.mp ha
  exact mul_nonneg (hcs bx hbx).1 (hcs bx hbx).2

/-- Every entry of a successful `intersection_area` is non-negative. -/
theorem intersection_area_ok_nonneg (b1 b2 : BoundingBoxes) (xs : List ℚ)
    (h : b1.intersection_area b2 = .ok xs) : ∀ a ∈ xs, 0 ≤ a := by
  unfold intersection_area at h
  by_cases hn : b1.normalized ≠ b2.normalized
  · rw [if_pos hn] at h
    cases h
  · rw [if_neg hn] at h
    cases hi : b1.intersection b2 with
    | error e =>
      rw [hi] at h
      simp at h
    | ok i =>
      rw [hi] at h
      simp only [Except.ok.injEq] at h
      subst h
      have hs := intersection_ok_spec b1 b2 i hi
      exact area_nonneg_of_clamped i hs.1 hs.2

end BoundingBoxes

/-! ## Claim theorems -/

/-- C1: the mask/image_sizes agreement invariant fails: for the one-item
size list `[(1, 2)]` on a `2 × 2` canvas, `_compute_sizes_from_mask`
applied to the mask built by `_compute_mask_from_sizes` returns `(0, 0)`
rather than the original `(1, 2)` — the code subtracts the total mask sum
from both axes, contradicting its own docstring ("Returns: The sizes of
the images") at any item with real padding. -/
theorem compute_sizes_from_mask_not_left_inverse :
    compute_sizes_from_mask (compute_mask_from_sizes [(1, 2)] 2 2) =
      [((0 : ℤ), (0 : ℤ))] ∧
    ((0 : ℤ), (0 : ℤ)) ≠ ((1 : ℤ), (2 : ℤ)) := by
  decide

/-- C2 (amended): in the `tasks/hoic` `CrossAttention`, every key whose
batch mask entry is `True` receives a `-∞` logit after the
continuous-position bias is added and exactly zero post-softmax weight,
for every exponential function and regardless of the bias value. -/
theorem hoic_padding_key_zero_weight (expe : ℚ → ℚ) (K : ℕ)
    (logits cpb : ℕ → ℚ) (mask : ℕ → Bool) (k : ℕ) (hk : k < K)
    (hm : mask k = true) :
    (hoicPostBiasLogits K logits cpb mask)[k]? = some none ∧
    (hoicCrossAttnWeights expe K logits cpb mask)[k]? = some 0 := by
  have h1 : (hoicPostBiasLogits K logits cpb mask)[k]? = some none := by
    unfold hoicPostBiasLogits
    rw [List.getElem?_map, List.getElem?_range hk]
    simp [hm]
  refine ⟨h1, ?_⟩
  unfold hoicCrossAttnWeights softmaxM
  rw [List.getElem?_map, h1]
  simp [expO]

/-- Witness for C2's amended theorem at `K = 2`, key `1` masked. -/
theorem hoic_padding_key_zero_weight_witness :
    (fun k => k == 1) 1 = true ∧
    (hoicPostBiasLogits 2 (fun _ => 0) (fun _ => 3)
      (fun k => k == 1))[1]? = some none ∧
    (hoicCrossAttnWeights (fun _ => 1) 2 (fun _ => 0) (fun _ => 3)
      (fun k => k == 1))[1]? = some 0 :=
  ⟨by decide,
    (hoic_padding_key_zero_weight (fun _ => 1) 2 (fun _ => 0) (fun _ => 3)
      (fun k => k == 1) 1 (by decide) (by decide)).1,
    (hoic_padding_key_zero_weight (fun _ => 1) 2 (fun _ => 0) (fun _ => 3)
      (fun k => k == 1) 1 (by decide) (by decide)).2⟩

/-- C2 counterexample: in the `models/gahoi` `CrossAttention` no mask is
applied, so with two keys, zero logits and zero bias, and the batch mask
marking key `1` as padding, key `1` keeps the finite post-bias logit `0`
(not `-∞`) and receives post-softmax weight `1/2 ≠ 0`. -/
theorem old_padding_key_nonzero_weight :
    (fun k => k == 1) 1 = true ∧
    (oldPostBiasLogits 2 (fun _ => 0) (fun _ => 0))[1]? =
      some (some 0) ∧
    (oldCrossAttnWeights (fun _ => 1) 2 (fun _ => 0) (fun _ => 0))[1]? =
      some (1 / 2) ∧
    (1 : ℚ) / 2 ≠ 0 := by
  refine ⟨by decide, ?_, ?_, by norm_num⟩
  · norm_num [oldPostBiasLogits, List.range_succ]
  · norm_num [oldCrossAttnWeights, softmaxM, oldPostBiasLogits, expO,
      List.range_succ]

/-- C3 (amended): the `tasks/hoic` `GraphAttention` aggregation, for every
strictly positive exponential: a two-edge group with logits `[1, 1]` gets
weights exactly `[1/2, 1/2]`; a single-edge group gets weight exactly `1`;
the segment sum is sized to the full node count, and any node with no
incoming edges gets an explicit all-zero row of the full feature width. -/
theorem hoic_graph_attention_segment_spec (expe : ℚ → ℚ)
    (he : ∀ x, 0 < expe x) :
    scatter_softmax expe [0, 0] [1, 1] = [1 / 2, 1 / 2] ∧
    (∀ n l, scatter_softmax expe [n] [l] = [1]) ∧
    (∀ idx logits messages width numNodes n, n < numNodes → n ∉ idx →
      (gahoiAggregate expe idx logits messages width numNodes)[n]? =
        some (List.replicate width 0)) ∧
    (∀ idx logits messages width numNodes,
      (gahoiAggregate expe idx logits messages width numNodes).length =
        numNodes) := by
  refine ⟨?_, ?_, ?_, ?_⟩
  · have h2 : expe 1 + expe 1 ≠ 0 := ne_of_gt (by linarith [he 1])
    unfold scatter_softmax
    simp [List.filter]
    rw [div_eq_iff h2]
    ring
  · intro n l
    have hl : expe l ≠ 0 := (he l).ne'
    unfold scatter_softmax
    simp [hl]
  · intro idx logits messages width numNodes n hn hidx
    unfold gahoiAggregate scatter_sum
    rw [List.getElem?_map, List.getElem?_range hn]
    simp only [Option.map_some']
    rw [filter_zip_eq_nil idx _ n hidx]
    rfl
  · intro idx logits messages width numNodes
    unfold gahoiAggregate scatter_sum
    simp

/-- Witness for C3's amended theorem: the constant exponential `1` on a
three-node graph whose node `2` is isolated. -/
theorem hoic_graph_attention_segment_spec_witness :
    scatter_softmax (fun _ => 1) [0, 0] [1, 1] = [1 / 2, 1 / 2] ∧
    scatter_softmax (fun _ => 1) [7] [5] = [1] ∧
    (gahoiAggregate (fun _ => 1) [0] [0] [[1, 2]] 2 3)[2]? =
      some (List.replicate 2 0) ∧
    (gahoiAggregate (fun _ => 1) [0] [0] [[1, 2]] 2 3).length = 3 :=
  ⟨(hoic_graph_attention_segment_spec (fun _ => 1) (fun _ => one_pos)).1,
    (hoic_graph_attention_segment_spec (fun _ => 1)
      (fun _ => one_pos)).2.1 7 5,
    (hoic_graph_attention_segment_spec (fun _ => 1)
      (fun _ => one_pos)).2.2.1 [0] [0] [[1, 2]] 2 3 2 (by decide) (by decide),
    (hoic_graph_attention_segment_spec (fun _ => 1)
      (fun _ => one_pos)).2.2.2 [0] [0] [[1, 2]] 2 3⟩

/-- C3 counterexample: in the `models/gahoi` `GraphAttention`,
`scatter_sum` is called without `dim_output_size`; on a two-node graph
whose only edge enters node `0`, the aggregated output has a single row —
node `1` gets no row at all, so the segment sum is not sized to the total
node count `2`. -/
theorem old_gahoi_isolated_node_missing :
    (oldGahoiAggregate (fun _ => 1) [0] [0] [[1, 2]] 2).length = 1 ∧
    (oldGahoiAggregate (fun _ => 1) [0] [0] [[1, 2]] 2)[1]? = none ∧
    (1 : ℕ) ≠ 2 := by
  decide

/-- C4: `BatchedImages.batch(images, padding_value)` errors exactly when
the list is empty, some image is not three-dimensional, or the images
disagree in channel count, dtype, or device; on success the canvas has
shape `(B, C, maxH, maxW)`, holds each image top-left-aligned over a
`padding_value` fill, and the mask is `False` exactly on each item's
copied region. -/
theorem batch_error_iff_and_canvas (images : List RawTensor) (pv : ℚ) :
    ((BatchedImages.batch images pv).isOk ↔ validImages images) ∧
    (∀ bi, BatchedImages.batch images pv = .ok bi →
      bi.B = images.length ∧
      bi.C = (images.getD 0 default).shape.getD 0 0 ∧
      bi.maxH = (images.map (fun i => i.shape.getD 1 0)).foldl Nat.max 0 ∧
      bi.maxW = (images.map (fun i => i.shape.getD 2 0)).foldl Nat.max 0 ∧
      bi.image_sizes =
        images.map (fun img => (img.shape.getD 1 0, img.shape.getD 2 0)) ∧
      (∀ i c y x,
        bi.data i c y x =
          if y < (images.getD i default).shape.getD 1 0 ∧
              x < (images.getD i default).shape.getD 2 0
          then (images.getD i default).at3 c y x else pv) ∧
      (∀ i y x, i < images.length →
        (bi.mask i y x = false ↔
          y < (images.getD i default).shape.getD 1 0 ∧
            x < (images.getD i default).shape.getD 2 0))) := by
  constructor
  · cases hv : check_images images with
    | error e =>
      have hnv : ¬ validImages images := by
        rw [← check_images_ok_iff, hv]
        simp
      unfold BatchedImages.batch
      rw [hv]
      simp [Except.isOk, Except.toBool, hnv]
    | ok u =>
      cases u
      have hvv : validImages images := (check_images_ok_iff images).mp hv
      unfold BatchedImages.batch
      rw [hv]
      simp [Except.isOk, Except.toBool, hvv]
  · intro bi hbi
    unfold BatchedImages.batch at hbi
    cases hv : check_images images with
    | error e =>
      rw [hv] at hbi
      cases hbi
    | ok u =>
      cases u
      rw [hv] at hbi
      simp only [Except.ok.injEq] at hbi
      subst hbi
      refine ⟨rfl, rfl, ?_, ?_, rfl, ?_, ?_⟩
      · simp only [List.map_map]
        rfl
      · simp only [List.map_map]
        rfl
      · intro i c y x
        rfl
      · intro i y x hi
        have hs := getD_map_lt images
          (fun img => (img.shape.getD 1 0, img.shape.getD 2 0))
          ((0 : ℕ), (0 : ℕ)) i hi
        simp only [hs]
        split_ifs with h
        · simpa using h
        · simpa using h

/-- Witness for C4 on the spec's example pair `img_a (3×4×5)`,
`img_b (3×6×3)`: batching succeeds, the canvas shape is `(2, 3, 6, 5)`,
and the mask is `False` inside the copied regions and `True` outside. -/
theorem batch_error_iff_and_canvas_witness :
    (BatchedImages.batch sampleImages 0).isOk = true ∧
    sampleBatched.B = 2 ∧ sampleBatched.C = 3 ∧
    sampleBatched.maxH = 6 ∧ sampleBatched.maxW = 5 ∧
    sampleBatched.mask 0 3 4 = false ∧ sampleBatched.mask 0 4 0 = true ∧
    sampleBatched.mask 1 5 2 = false ∧ sampleBatched.mask 1 0 3 = true := by
  have h := batch_error_iff_and_canvas sampleImages 0
  have hok : BatchedImages.batch sampleImages 0 = .ok sampleBatched := rfl
  have h2 := h.2 sampleBatched hok
  refine ⟨h.1.mpr (by decide), h2.1, h2.2.1, ?_, ?_, ?_, ?_, ?_, ?_⟩
  · rw [h2.2.2.1]; rfl
  · rw [h2.2.2.2.1]; rfl
  · exact (h2.2.2.2.2.2.2 0 3 4 (by decide)).mpr (by decide)
  · have hm := (h2.2.2.2.2.2.2 0 4 0 (by decide)).not.mpr (by decide)
    simpa using hm
  · exact (h2.2.2.2.2.2.2 1 5 2 (by decide)).mpr (by decide)
  · have hm := (h2.2.2.2.2.2.2 1 0 3 (by decide)).not.mpr (by decide)
    simpa using hm

/-- C5 (amended): for every box set whose image size has nonzero height
and width, converting to any target format and normalization state and
then back to the original state restores the box set exactly (over exact
rational arithmetic), including format, normalized flag and image size. -/
theorem BoundingBoxes.convert_roundtrip (b : BoundingBoxes)
    (f2 : BoundingBoxFormat) (n2 : Bool) (hH : b.image_size.1 ≠ 0)
    (hW : b.image_size.2 ≠ 0) :
    (b.convert (some f2) (some n2)).convert (some b.format)
      (some b.normalized) = b := by
  rcases b with ⟨coords, f1, nb, H, W⟩
  have hWQ : (W : ℚ) ≠ 0 := Nat.cast_ne_zero.mpr hW
  have hHQ : (H : ℚ) ≠ 0 := Nat.cast_ne_zero.mpr hH
  simp only [convert_some]
  cases nb <;> cases n2 <;>
    simp only [fmtTo_eq, normalize, denormalize, if_true, if_false,
      List.map_map, mk.injEq, Bool.false_eq_true, Bool.true_eq_false,
      reduceIte]
  · exact ⟨map_eq_self _ coords (fun r => rowRoundNN f1 f2 r),
      trivial, trivial, trivial⟩
  · exact ⟨map_eq_self _ coords
      (fun r => rowRoundDN f1 f2 _ _ hWQ hHQ r), trivial, trivial, trivial⟩
  · exact ⟨map_eq_self _ coords
      (fun r => rowRoundND f1 f2 _ _ hWQ hHQ r), trivial, trivial, trivial⟩
  · exact ⟨map_eq_self _ coords (fun r => rowRoundNN f1 f2 r),
      trivial, trivial, trivial⟩

/-- Witness for C5 on a concrete `XYWH` box over a `(10, 7)` image,
converted to normalized `CXCYWH` and back. -/
theorem BoundingBoxes.convert_roundtrip_witness :
    ((⟨[⟨1, 2, 3, 4⟩], .XYWH, false, (10, 7)⟩ : BoundingBoxes).convert
        (some .CXCYWH) (some true)).convert (some .XYWH) (some false) =
      ⟨[⟨1, 2, 3, 4⟩], .XYWH, false, (10, 7)⟩ :=
  BoundingBoxes.convert_roundtrip
    ⟨[⟨1, 2, 3, 4⟩], .XYWH, false, (10, 7)⟩ .CXCYWH true
    (by decide) (by decide)

/-- C5 counterexample: with image size `(0, 0)` the claim's unrestricted
round trip fails — normalizing divides by zero (`inf`/`nan` in the
source's float arithmetic, `0` in the exact model; in both cases the
coordinates are destroyed), so converting the box `[1, 1, 1, 1]` to
normalized and back does not restore it. -/
theorem BoundingBoxes.convert_roundtrip_zero_size_cex :
    ((⟨[⟨1, 1, 1, 1⟩], .XYXY, false, (0, 0)⟩ : BoundingBoxes).convert
        (some .XYXY) (some true)).convert (some .XYXY) (some false) ≠
      ⟨[⟨1, 1, 1, 1⟩], .XYXY, false, (0, 0)⟩ := by
  intro h
  have h2 := congrArg BoundingBoxes.coordinates h
  norm_num [BoundingBoxes.convert_some, BoundingBoxes.fmtTo_eq,
    BoundingBoxes.normalize, BoundingBoxes.denormalize,
    BoundingBoxes.divRow, BoundingBoxes.mulRow, BoundingBoxes.fmtRow,
    BoundingBoxes.rowToXYXY, Box.mk.injEq] at h2

/-- C6: `union`, `intersection`, `union_area` and `intersection_area`
fail exactly when the operands differ in box count or image size (the
operand's format and normalization are auto-converted, never required to
match, for `union`/`intersection`), and the area-based variants raise the
explicit normalization error whenever the normalization states differ. -/
theorem BoundingBoxes.set_ops_error_contract (b1 b2 : BoundingBoxes) :
    ((b1.union b2).isOk ↔
      (b1.coordinates.length = b2.coordinates.length ∧
        b1.image_size = b2.image_size)) ∧
    ((b1.intersection b2).isOk ↔
      (b1.coordinates.length = b2.coordinates.length ∧
        b1.image_size = b2.image_size)) ∧
    ((b1.union_area b2).isOk ↔
      (b1.normalized = b2.normalized ∧
        b1.coordinates.length = b2.coordinates.length ∧
        b1.image_size = b2.image_size)) ∧
    ((b1.intersection_area b2).isOk ↔
      (b1.normalized = b2.normalized ∧
        b1.coordinates.length = b2.coordinates.length ∧
        b1.image_size = b2.image_size)) ∧
    (b1.normalized ≠ b2.normalized →
      b1.union_area b2 = .error .normMismatch ∧
        b1.intersection_area b2 = .error .normMismatch) :=
  ⟨union_isOk_iff b1 b2, intersection_isOk_iff b1 b2,
    union_area_isOk_iff b1 b2, intersection_area_isOk_iff b1 b2,
    area_ops_norm_mismatch b1 b2⟩

/-- Witness for C6: `union` succeeds across a format and normalization
mismatch; `union_area` raises the normalization error; `union` fails on
an image-size mismatch. -/
theorem BoundingBoxes.set_ops_error_contract_witness :
    (BoundingBoxes.union ⟨[⟨0, 0, 2, 2⟩], .XYXY, false, (10, 10)⟩
        ⟨[⟨1, 1, 3, 3⟩], .CXCYWH, true, (10, 10)⟩).isOk = true ∧
    BoundingBoxes.union_area ⟨[⟨0, 0, 2, 2⟩], .XYXY, false, (10, 10)⟩
        ⟨[⟨1, 1, 3, 3⟩], .CXCYWH, true, (10, 10)⟩ =
      .error .normMismatch ∧
    (BoundingBoxes.union ⟨[⟨0, 0, 2, 2⟩], .XYXY, false, (10, 10)⟩
        ⟨[⟨1, 1, 3, 3⟩], .XYXY, false, (5, 5)⟩).isOk = false :=
  ⟨(BoundingBoxes.set_ops_error_contract
      ⟨[⟨0, 0, 2, 2⟩], .XYXY, false, (10, 10)⟩
      ⟨[⟨1, 1, 3, 3⟩], .CXCYWH, true, (10, 10)⟩).1.mpr ⟨rfl, rfl⟩,
    ((BoundingBoxes.set_ops_error_contract
      ⟨[⟨0, 0, 2, 2⟩], .XYXY, false, (10, 10)⟩
      ⟨[⟨1, 1, 3, 3⟩], .CXCYWH, true, (10, 10)⟩).2.2.2.2 (by decide)).1,
    by
      simpa using (BoundingBoxes.set_ops_error_contract
        ⟨[⟨0, 0, 2, 2⟩], .XYXY, false, (10, 10)⟩
        ⟨[⟨1, 1, 3, 3⟩], .XYXY, false, (5, 5)⟩).1.not.mpr (by decide)⟩

/-- C7: for the single-box sets `[[0,0,2,2]]` and `[[1,1,3,3]]` (`XYXY`,
unnormalized, image size `(10, 10)`): the intersection area is exactly
`1`, the union area exactly `7`, and `iou` — which normalizes both sets
and divides by an epsilon-guarded denominator — returns a value within
`10⁻⁶` of `1/7` (exactly `2097152/14680089` with the `float32` epsilon
`2⁻²³`). -/
theorem BoundingBoxes.iou_concrete :
    BoundingBoxes.intersection_area ⟨[⟨0, 0, 2, 2⟩], .XYXY, false, (10, 10)⟩
        ⟨[⟨1, 1, 3, 3⟩], .XYXY, false, (10, 10)⟩ = .ok [1] ∧
    BoundingBoxes.union_area ⟨[⟨0, 0, 2, 2⟩], .XYXY, false, (10, 10)⟩
        ⟨[⟨1, 1, 3, 3⟩], .XYXY, false, (10, 10)⟩ = .ok [7] ∧
    BoundingBoxes.iou ⟨[⟨0, 0, 2, 2⟩], .XYXY, false, (10, 10)⟩
        ⟨[⟨1, 1, 3, 3⟩], .XYXY, false, (10, 10)⟩ =
      .ok [2097152 / 14680089] ∧
    |2097152 / 14680089 - (1 : ℚ) / 7| ≤ 1 / 1000000 := by
  refine ⟨?_, ?_, ?_, ?_⟩
  · norm_num [intersection_area, intersection, check_compatibility, to_xyxy,
      convert_like, convert, normalize, denormalize, area, min_def, max_def]
  · norm_num [union_area, intersection_area, intersection,
      check_compatibility, to_xyxy, convert_like, convert, normalize,
      denormalize, area, min_def, max_def]
  · norm_num [iou, machineEps, union_area, intersection_area, intersection,
      check_compatibility, to_xyxy, convert_like, convert, normalize,
      denormalize, area, divRow, min_def, max_def]
  · rw [abs_le]
    constructor <;> norm_num

/-- C8: every conversion method already in its target state returns the
identical object (same Python id) without allocating: `to_xyxy` on an
`XYXY` set, `to_xywh` on `XYWH`, `to_cxcywh` on `CXCYWH`, `normalize` on
a normalized set, `denormalize` on a denormalized set. -/
theorem AllocBoxes.conversion_identity_shortcircuit (b : AllocBoxes)
    (n : ℕ) :
    (b.val.format = .XYXY → b.to_xyxyA n = (b, n)) ∧
    (b.val.format = .XYWH → b.to_xywhA n = (b, n)) ∧
    (b.val.format = .CXCYWH → b.to_cxcywhA n = (b, n)) ∧
    (b.val.normalized = true → b.normalizeA n = (b, n)) ∧
    (b.val.normalized = false → b.denormalizeA n = (b, n)) := by
  refine ⟨?_, ?_, ?_, ?_, ?_⟩ <;> intro h
  · simp [AllocBoxes.to_xyxyA, h]
  · simp [AllocBoxes.to_xywhA, h]
  · simp [AllocBoxes.to_cxcywhA, h]
  · simp [AllocBoxes.normalizeA, h]
  · simp [AllocBoxes.denormalizeA, h]

/-- Witness for C8 on a concrete normalized `XYXY` object with id `5`:
both short-circuits return the same object and leave the allocation
counter untouched. -/
theorem AllocBoxes.conversion_identity_shortcircuit_witness :
    AllocBoxes.to_xyxyA ⟨⟨[⟨1, 2, 3, 4⟩], .XYXY, true, (8, 9)⟩, 5⟩ 9 =
      (⟨⟨[⟨1, 2, 3, 4⟩], .XYXY, true, (8, 9)⟩, 5⟩, 9) ∧
    AllocBoxes.normalizeA ⟨⟨[⟨1, 2, 3, 4⟩], .XYXY, true, (8, 9)⟩, 5⟩ 9 =
      (⟨⟨[⟨1, 2, 3, 4⟩], .XYXY, true, (8, 9)⟩, 5⟩, 9) :=
  ⟨(AllocBoxes.conversion_identity_shortcircuit
      ⟨⟨[⟨1, 2, 3, 4⟩], .XYXY, true, (8, 9)⟩, 5⟩ 9).1 rfl,
    (AllocBoxes.conversion_identity_shortcircuit
      ⟨⟨[⟨1, 2, 3, 4⟩], .XYXY, true, (8, 9)⟩, 5⟩ 9).2.2.2.1 rfl⟩

/-- C9: `horizontal_flip` is an involution in every format and
normalization state, restoring the coordinates, format, normalized flag
and image size exactly; the source operates on a cloned coordinate
buffer, which the value semantics of this model reflects. -/
theorem BoundingBoxes.horizontal_flip_involutive (b : BoundingBoxes) :
    b.horizontal_flip.horizontal_flip = b := by
  rcases b with ⟨coords, f, nb, sz⟩
  cases f <;>
    simp only [horizontal_flip, List.map_map, mk.injEq] <;>
    refine ⟨?_, trivial, trivial, trivial⟩ <;>
    refine map_eq_self _ coords (fun r => ?_) <;>
    (cases r
     simp only [Function.comp, Box.mk.injEq]
     refine ⟨by ring, by ring, by ring, by ring⟩)

/-- C10: `intersection` always returns `XYWH` rows whose width and height
are clamped non-negative — so every entry of its `area` (and hence of
`intersection_area`) is non-negative, disjoint boxes included — and
`union` always returns its result in `XYXY` format. -/
theorem BoundingBoxes.intersection_clamped_union_xyxy
    (b1 b2 : BoundingBoxes) :
    (∀ r, b1.intersection b2 = .ok r →
      r.format = .XYWH ∧ (∀ bx ∈ r.coordinates, 0 ≤ bx.c2 ∧ 0 ≤ bx.c3) ∧
        ∀ a ∈ r.area, 0 ≤ a) ∧
    (∀ u, b1.union b2 = .ok u → u.format = .XYXY) ∧
    (∀ xs, b1.intersection_area b2 = .ok xs → ∀ a ∈ xs, 0 ≤ a) :=
  ⟨fun r h =>
    ⟨(intersection_ok_spec b1 b2 r h).1, (intersection_ok_spec b1 b2 r h).2,
      area_nonneg_of_clamped r (intersection_ok_spec b1 b2 r h).1
        (intersection_ok_spec b1 b2 r h).2⟩,
    fun u h => union_ok_spec b1 b2 u h,
    fun xs h => intersection_area_ok_nonneg b1 b2 xs h⟩

/-- Witness for C10 on the disjoint boxes `[0,0,1,1]` and `[5,5,6,6]`:
the intersection is the clamped `XYWH` row `[5,5,0,0]` with area `0 ≥ 0`,
and the union is the `XYXY` row `[0,0,6,6]`. -/
theorem BoundingBoxes.intersection_clamped_union_xyxy_witness :
    BoundingBoxes.intersection ⟨[⟨0, 0, 1, 1⟩], .XYXY, false, (10, 10)⟩
        ⟨[⟨5, 5, 6, 6⟩], .XYXY, false, (10, 10)⟩ =
      .ok ⟨[⟨5, 5, 0, 0⟩], .XYWH, false, (10, 10)⟩ ∧
    (∀ a ∈ (⟨[⟨5, 5, 0, 0⟩], .XYWH, false, (10, 10)⟩ :
      BoundingBoxes).area, 0 ≤ a) ∧
    BoundingBoxes.union ⟨[⟨0, 0, 1, 1⟩], .XYXY, false, (10, 10)⟩
        ⟨[⟨5, 5, 6, 6⟩], .XYXY, false, (10, 10)⟩ =
      .ok ⟨[⟨0, 0, 6, 6⟩], .XYXY, false, (10, 10)⟩ ∧
    (⟨[⟨0, 0, 6, 6⟩], .XYXY, false, (10, 10)⟩ :
      BoundingBoxes).format = .XYXY := by
  have hi : BoundingBoxes.intersection
      ⟨[⟨0, 0, 1, 1⟩], .XYXY, false, (10, 10)⟩
      ⟨[⟨5, 5, 6, 6⟩], .XYXY, false, (10, 10)⟩ =
      .ok ⟨[⟨5, 5, 0, 0⟩], .XYWH, false, (10, 10)⟩ := by
    norm_num [intersection, check_compatibility, to_xyxy, convert_like,
      convert, normalize, denormalize, min_def, max_def]
  have hu : BoundingBoxes.union
      ⟨[⟨0, 0, 1, 1⟩], .XYXY, false, (10, 10)⟩
      ⟨[⟨5, 5, 6, 6⟩], .XYXY, false, (10, 10)⟩ =
      .ok ⟨[⟨0, 0, 6, 6⟩], .XYXY, false, (10, 10)⟩ := by
    norm_num [union, check_compatibility, to_xyxy, convert_like,
      convert, normalize, denormalize, min_def, max_def]
  refine ⟨hi, ?_, hu, ?_⟩
  · exact ((BoundingBoxes.intersection_clamped_union_xyxy _ _).1 _ hi).2.2
  · exact (BoundingBoxes.intersection_clamped_union_xyxy _ _).2.1 _ hu

end Deepsight
